import Mathlib

/-!
Verification of the column-profiling engine of Project_MuonEDA
(`src/Project_MuonEDA/src/data_loading.py`): the statistic helpers
`_monotonic_hint`, `_zero_fraction`, `_constant_hint`, the role classifier
`possible_role`, the report assembly `build_schema_report`, and the
structural cleaner `basic_structural_clean`.

Modelling choices shared by every definition below:
* pandas numeric cells become exact rationals (`ℚ`); a missing value (NaN)
  becomes `Option.none`.  All claims under test concern counting, ordering,
  thresholds and decimal formatting, where the float and rational results
  coincide on the inputs exercised.
* a pandas Series with its dtype becomes `ColData`: a numeric column
  (`float64`-kind) or a text column (`object`-kind), each a list of
  optional cells.
* Python string formatting `%.2f` / `%.4g` is reimplemented on `ℚ`
  (round-half-to-even, fixed or scientific layout with trailing-zero
  stripping, exactly as printf specifies for `g`).
-/

attribute [local semireducible] Rat.mul Rat.inv Rat.add Rat.sub Rat.ofScientific

set_option maxRecDepth 100000

/-- The whitespace characters stripped by Python `str.strip()` (ASCII part;
the source data is ASCII). -/
def isPySpace (c : Char) : Bool :=
  c = ' ' || c = '\t' || c = '\n' || c = '\r' || c = '\x0b' || c = '\x0c'

/-- Strip leading and trailing whitespace from a character list, as
Python `str.strip()` does. -/
def stripList (l : List Char) : List Char :=
  ((l.dropWhile isPySpace).reverse.dropWhile isPySpace).reverse

/-- Python `str.strip()` on a `String`. -/
def pystrip (s : String) : String := ⟨stripList s.data⟩

/-- `true` when the list neither starts nor ends with a whitespace
character: the shape of a whitespace-stripped string. -/
def okEnds (l : List Char) : Bool :=
  ((l.head?).all fun c => !isPySpace c) && ((l.getLast?).all fun c => !isPySpace c)

/-- Left-pad a string with zeros to the given width (digit rendering). -/
def padLeftZeros (s : String) (w : ℕ) : String :=
  if w ≤ s.length then s else ⟨List.replicate (w - s.length) '0'⟩ ++ s

/-- Drop trailing `0` characters of a digit string (printf `%g` strips
trailing zeros of the fractional part). -/
def stripTrailingZeroChars (l : List Char) : List Char :=
  (l.reverse.dropWhile fun c => c = '0').reverse

/-- Round a rational to the nearest integer, ties to even: the rounding used
by printf-style formatting of the (exactly represented) values. -/
def roundHalfEvenQ (x : ℚ) : ℤ :=
  let f : ℤ := ⌊x⌋
  let r : ℚ := x - (f : ℚ)
  if r < 1 / 2 then f
  else if 1 / 2 < r then f + 1
  else if f % 2 = 0 then f else f + 1

/-- Python `f"{x:.2f}"` for a nonnegative rational: two digits after the
decimal point. -/
def fmt2f (q : ℚ) : String :=
  let n : ℤ := roundHalfEvenQ (q * 100)
  toString (n / 100) ++ "." ++ padLeftZeros (toString ((n % 100).toNat)) 2

/-- Smallest `k` (starting from the given one) with `1 ≤ q * 10 ^ k`,
computed with explicit fuel. -/
def firstPowGe (q : ℚ) : ℕ → ℕ → ℕ
  | 0, k => k
  | fuel + 1, k => if 1 ≤ q * (10 : ℚ) ^ k then k else firstPowGe q fuel (k + 1)

/-- `⌊log₁₀ q⌋` for a positive rational. -/
def floorLog10Pos (q : ℚ) : ℤ :=
  if 1 ≤ q then (Nat.log 10 (Int.toNat ⌊q⌋) : ℤ)
  else -(firstPowGe q (Nat.log 10 q.den + 2) 1 : ℤ)

/-- Fixed-point layout of printf `%.4g`: `m` holds the four rounded
significant digits (`1000 ≤ m ≤ 9999`), `e` the decimal exponent,
`-4 ≤ e < 4`; trailing fractional zeros are stripped. -/
def fixed4g (m : ℕ) (e : ℤ) : String :=
  if e < 0 then
    let frac : String := ⟨List.replicate (Int.toNat (-e - 1)) '0'⟩ ++ toString m
    "0." ++ String.mk (stripTrailingZeroChars frac.data)
  else
    let k : ℕ := 3 - Int.toNat e
    let fracStr := stripTrailingZeroChars (padLeftZeros (toString (m % 10 ^ k)) k).data
    if fracStr.isEmpty then toString (m / 10 ^ k)
    else toString (m / 10 ^ k) ++ "." ++ String.mk fracStr

/-- Scientific layout of printf `%.4g` (`d.ddde±XX`, exponent at least two
digits, trailing mantissa zeros stripped). -/
def sci4g (m : ℕ) (e : ℤ) : String :=
  let rest := stripTrailingZeroChars (padLeftZeros (toString (m % 1000)) 3).data
  let mant := if rest.isEmpty then toString (m / 1000)
              else toString (m / 1000) ++ "." ++ String.mk rest
  mant ++ "e" ++ (if e < 0 then "-" else "+") ++
    padLeftZeros (toString (Int.toNat (if e < 0 then -e else e))) 2

/-- Python `f"{x:.4g}"` on an exact rational: four significant digits,
fixed layout for decimal exponents in `[-4, 4)`, scientific otherwise. -/
def fmt4g (q : ℚ) : String :=
  if q = 0 then "0"
  else
    let sgn := if q < 0 then "-" else ""
    let a : ℚ := if q < 0 then -q else q
    let e0 : ℤ := floorLog10Pos a
    let m0 : ℤ := roundHalfEvenQ (a * (10 : ℚ) ^ ((3 : ℤ) - e0))
    let m : ℕ := if m0 ≥ 10000 then 1000 else m0.toNat
    let e : ℤ := if m0 ≥ 10000 then e0 + 1 else e0
    if -4 ≤ e ∧ e < 4 then sgn ++ fixed4g m e else sgn ++ sci4g m e

/-- Consume leading decimal digits, returning accumulated value, digit
count and the remaining characters. -/
def parseNatDigits : List Char → ℕ → ℕ → ℕ × ℕ × List Char
  | [], acc, cnt => (acc, cnt, [])
  | c :: t, acc, cnt =>
    if c.isDigit then parseNatDigits t (acc * 10 + (c.toNat - 48)) (cnt + 1)
    else (acc, cnt, c :: t)

/-- Exponent suffix of a numeric literal (`e±ddd`), applied to an already
parsed signed mantissa. -/
def parseExp (sgn base : ℚ) (l : List Char) : Option ℚ :=
  let p := match l with
    | '-' :: t => ((-1 : ℤ), t)
    | '+' :: t => ((1 : ℤ), t)
    | t => ((1 : ℤ), t)
  let d := parseNatDigits p.2 0 0
  if d.2.1 = 0 ∨ d.2.2 ≠ [] then none
  else some (sgn * base * (10 : ℚ) ^ (p.1 * (d.1 : ℤ)))

/-- The numeric coercion applied by `pd.to_numeric(..., errors="coerce")`
to a text cell: optional sign, decimal digits with an optional fractional
part and exponent, surrounding whitespace allowed; anything else is
non-coercible (`none`, i.e. NaN). -/
def tryParseRat (s : String) : Option ℚ :=
  let l := stripList s.data
  let sg := match l with
    | '-' :: t => ((-1 : ℚ), t)
    | '+' :: t => ((1 : ℚ), t)
    | t => ((1 : ℚ), t)
  let ipart := parseNatDigits sg.2 0 0
  let fpart := match ipart.2.2 with
    | '.' :: t => parseNatDigits t 0 0
    | t => (0, 0, t)
  if ipart.2.1 + fpart.2.1 = 0 then none
  else
    let base : ℚ := (ipart.1 : ℚ) + (fpart.1 : ℚ) / (10 : ℚ) ^ fpart.2.1
    match fpart.2.2 with
    | [] => some (sg.1 * base)
    | 'e' :: t => parseExp sg.1 base t
    | 'E' :: t => parseExp sg.1 base t
    | _ => none

/-- A raw cell as parsed from the whitespace-separated file: a number, a
text token, or a missing entry. -/
inductive RawValue where
  | num (q : ℚ)
  | text (s : String)
  | missing
deriving DecidableEq

/-- Abstraction of Python `str()` on a numeric cell. The exact float `repr`
is outside the rational embedding; no verified claim depends on this
rendering. -/
def pyShowNum (q : ℚ) : String :=
  if q.den = 1 then toString q.num ++ ".0"
  else toString q.num ++ "/" ++ toString q.den

/-- `astype(str)` on one raw cell (pandas renders NaN as the string
`"nan"`). -/
def pyStrRaw : RawValue → String
  | RawValue.num q => pyShowNum q
  | RawValue.text s => s
  | RawValue.missing => "nan"

/-- `pd.to_numeric(..., errors="coerce")` on one raw cell. -/
def toNumericCell : RawValue → Option ℚ
  | RawValue.num q => some q
  | RawValue.text s => tryParseRat s
  | RawValue.missing => none

/-- A typed column (a pandas Series with its dtype): numeric
(`float64`-kind) or text (`object`-kind) cells, `none` being NaN. -/
inductive ColData where
  | numCol (cells : List (Option ℚ))
  | strCol (cells : List (Option String))
deriving DecidableEq

/-- `pd.api.types.is_numeric_dtype`. -/
def isNumericDtype : ColData → Bool
  | ColData.numCol _ => true
  | ColData.strCol _ => false

/-- `len(s)`: the number of cells, missing ones included. -/
def totalLen : ColData → ℕ
  | ColData.numCol cs => cs.length
  | ColData.strCol cs => cs.length

/-- The non-missing numeric values in row order (`s.dropna()` of a numeric
column). -/
def nonMissingNum : ColData → List ℚ
  | ColData.numCol cs => cs.filterMap id
  | ColData.strCol _ => []

/-- `len(s.dropna())` for either dtype. -/
def nonMissingCount : ColData → ℕ
  | ColData.numCol cs => (cs.filterMap id).length
  | ColData.strCol cs => (cs.filterMap id).length

/-- `s.nunique()`: distinct non-missing values. -/
def nunique : ColData → ℕ
  | ColData.numCol cs => (cs.filterMap id).dedup.length
  | ColData.strCol cs => (cs.filterMap id).dedup.length

/-- The number of cells equal to zero over the full column, missing cells
counted as not equal (`s.eq(0)` is False at NaN). -/
def fullZeroCount : ColData → ℕ
  | ColData.numCol cs => cs.countP fun c => decide (c = some (0 : ℚ))
  | ColData.strCol _ => 0

/-- `s.eq(0).mean()` over the full column, missing entries in the
denominator (division by zero yields 0, matching `NaN > 0.95` = False). -/
def fullZeroFrac (s : ColData) : ℚ := (fullZeroCount s : ℚ) / (totalLen s : ℚ)

/-- `min` of a value list (`none` when empty, as pandas returns NaN). -/
def listMin : List ℚ → Option ℚ
  | [] => none
  | a :: t => match listMin t with
    | none => some a
    | some b => some (min a b)

/-- `max` of a value list (`none` when empty). -/
def listMax : List ℚ → Option ℚ
  | [] => none
  | a :: t => match listMax t with
    | none => some a
    | some b => some (max a b)

/-- `float(s.max()) - float(s.min()) ≤ b` on the non-missing values; False
when there are none (NaN comparisons are False). -/
def rangeLE (s : ColData) (b : ℚ) : Bool :=
  match listMax (nonMissingNum s), listMin (nonMissingNum s) with
  | some mx, some mn => decide (mx - mn ≤ b)
  | _, _ => false

/-- `max - min` of the non-missing values, `0` by convention when there are
none (only read under a nonemptiness guard, as in the source). -/
def colRangeD (s : ColData) : ℚ :=
  match listMax (nonMissingNum s), listMin (nonMissingNum s) with
  | some mx, some mn => mx - mn
  | _, _ => 0

/-- `Series.is_monotonic_increasing`: adjacent values non-decreasing. -/
def isMonoInc : List ℚ → Bool
  | [] => true
  | [_] => true
  | a :: b :: t => decide (a ≤ b) && isMonoInc (b :: t)

/-- `Series.is_monotonic_decreasing`: adjacent values non-increasing. -/
def isMonoDec : List ℚ → Bool
  | [] => true
  | [_] => true
  | a :: b :: t => decide (b ≤ a) && isMonoDec (b :: t)

/-- `s2.iloc[0]` of the dropna'd column, rendered as Python `str()` does
inside an f-string (empty string if unreachable). -/
def firstNonMissingStr : ColData → String
  | ColData.numCol cs =>
    match (cs.filterMap id).head? with
    | some q => pyShowNum q
    | none => ""
  | ColData.strCol cs =>
    match (cs.filterMap id).head? with
    | some t => t
    | none => ""

/-- `_monotonic_hint` (data_loading.py, lines 105-117): dropna, then rule
out the empty and non-numeric cases, then require exactly one of the
non-decreasing / non-increasing tests. -/
def _monotonic_hint (s : ColData) : String :=
  if nonMissingCount s = 0 then "empty"
  else if isNumericDtype s = false then "n/a"
  else if isMonoInc (nonMissingNum s) = true ∧ isMonoDec (nonMissingNum s) = false then
    "monotonic_increasing"
  else if isMonoDec (nonMissingNum s) = true ∧ isMonoInc (nonMissingNum s) = false then
    "monotonic_decreasing"
  else "not_monotonic"

/-- `_zero_fraction` (lines 120-124): dropna; `"n/a"` when empty or not
numeric, else the fraction of values equal to zero as a two-decimal
percentage string. -/
def _zero_fraction (s : ColData) : String :=
  if nonMissingCount s = 0 ∨ isNumericDtype s = false then "n/a"
  else
    fmt2f (((nonMissingNum s).countP (fun q => decide (q = 0)) : ℚ) /
      ((nonMissingNum s).length : ℚ) * 100) ++ "%"

/-- `_constant_hint` (lines 127-147): empty, constant, numeric
near-constant (≤ 5 distinct, range ≤ 0.5), low cardinality (≤ 3
distinct), `"varies"`, checked in that order. -/
def _constant_hint (s : ColData) : String :=
  if nonMissingCount s = 0 then "empty"
  else if nunique s = 1 then "constant(" ++ firstNonMissingStr s ++ ")"
  else if isNumericDtype s = true ∧ nunique s ≤ 5 ∧ rangeLE s (1 / 2) = true then
    "near_constant(nunique=" ++ toString (nunique s) ++ ", range=" ++
      fmt4g (colRangeD s) ++ ")"
  else if nunique s ≤ 3 then "low_cardinality(nunique=" ++ toString (nunique s) ++ ")"
  else "varies"

/-- `possible_role` (lines 172-187): the priority-ordered role-hypothesis
chain, first match wins; `s.eq(0).mean()` in the mostly-zeros rule runs
over the full column, missing entries included. -/
def possible_role (col : String) (s : ColData) : String :=
  if col = "col_9" ∧ nunique s = 1 then "label/type (constant category)"
  else if isNumericDtype s = true then
    if nunique s = 1 then "constant sensor/setting (e.g., fixed parameter)"
    else if nunique s ≤ 5 ∧ rangeLE s (1 / 2) = true then
      "near-constant reading (low variation)"
    else if _zero_fraction s ≠ "n/a" ∧ fullZeroFrac s > 95 / 100 then
      "flag/status/unused channel (mostly zeros)"
    else if _monotonic_hint s = "monotonic_increasing" then
      "counter or time-like variable (monotonic)"
    else "unknown"
  else "unknown"

/-- A raw dataframe: the shared row count and the named columns in order. -/
structure RawTable where
  nRows : ℕ
  cols : List (String × List RawValue)
deriving DecidableEq

/-- A cleaned dataframe: the input shape `build_schema_report` consumes. -/
structure Table where
  nRows : ℕ
  cols : List (String × ColData)
deriving DecidableEq

/-- One column of `basic_structural_clean`: `col_9` is stringified and
stripped, every other column is coerced to numeric. -/
def cleanColumn (name : String) (cells : List RawValue) : ColData :=
  if name = "col_9" then
    ColData.strCol (cells.map fun v => some (pystrip (pyStrRaw v)))
  else ColData.numCol (cells.map toNumericCell)

/-- `basic_structural_clean` (lines 82-99).  The Python function copies its
argument (`out = df.copy()`) and mutates only the copy; with the stateful
call modelled by explicit state passing, it maps the caller's table to
(the caller's table as left after the call, the returned table). -/
def basic_structural_clean (df : RawTable) : RawTable × Table :=
  (df, ⟨df.nRows, df.cols.map fun p => (p.1, cleanColumn p.1 p.2)⟩)

/-- The cells of a text column (`[]` on a numeric column). -/
def strColCells : ColData → List (Option String)
  | ColData.numCol _ => []
  | ColData.strCol cs => cs

/-- The pandas dtype label as printed in the report (`int64` columns are
not distinguished in the rational embedding; no claim reads this field). -/
def dtypeStr : ColData → String
  | ColData.numCol _ => "float64"
  | ColData.strCol _ => "object"

/-- One row of the column-summary markdown table (loop body of
`build_schema_report`, lines 194-211). -/
def summaryRow (p : String × ColData) : String :=
  let s := p.2
  let mn := if isNumericDtype s = true then
      (match listMin (nonMissingNum s) with
       | some q => fmt4g q
       | none => "")
    else ""
  let mx := if isNumericDtype s = true then
      (match listMax (nonMissingNum s) with
       | some q => fmt4g q
       | none => "")
    else ""
  let zf := if isNumericDtype s = true then _zero_fraction s else "n/a"
  let mono := if isNumericDtype s = true then _monotonic_hint s else "n/a"
  "| " ++ p.1 ++ " | " ++ dtypeStr s ++ " | " ++ toString (nunique s) ++ " | " ++
    mn ++ " | " ++ mx ++ " | " ++ zf ++ " | " ++ mono ++ " | " ++
    _constant_hint s ++ " | " ++ possible_role p.1 s ++ " |"

/-- The report lines appended before the per-column loop (lines 162-192). -/
def reportHeader (t : Table) : List String :=
  ["# MuNRa dataset schema report",
   "",
   "**Important:** This report is *functional/technical* profiling only.",
   "It does **not** assign physical meaning definitively. Any \x27possible role\x27 is a hypothesis.",
   "",
   "- Rows: **" ++ toString t.nRows ++ "**",
   "- Columns: **" ++ toString t.cols.length ++ "**",
   "",
   "## Column summary",
   "",
   "| column | dtype | nunique | min | max | % zeros | monotonic | const/low-card | possible role (hypothesis) |",
   "|---|---:|---:|---:|---:|---:|---:|---:|---|"]

/-- The fixed trailing notes (lines 213-220). -/
def reportNotes : List String :=
  ["",
   "## Notes / next steps",
   "",
   "- If a column is monotonic increasing, it is often a counter or timestamp-like field.",
   "- If a column is constant (or low-cardinality), it may be a fixed sensor reading or a configuration parameter.",
   "- If a column is mostly zeros, it may be a flag/channel not used in this measurement setup.",
   "- Definitive physical mapping should be done by comparing with device documentation and checking expected units/ranges.",
   ""]

/-- `build_schema_report` (lines 150-222): header lines, one summary row
appended per column in a loop over `df.columns`, the fixed notes, joined
with newlines. -/
def build_schema_report (t : Table) : String :=
  String.intercalate "\n"
    (t.cols.foldl (fun acc p => acc ++ [summaryRow p]) (reportHeader t) ++ reportNotes)

/-- Concrete column for the C5 counterexample: forty zeros, one seven,
three missing cells. -/
def cexCol5 : ColData :=
  ColData.numCol (List.replicate 40 (some 0) ++ [some 7] ++ List.replicate 3 none)

/-- Concrete column for the C5 witness: forty zeros and one seven, no
missing cells. -/
def wzCol5 : ColData := ColData.numCol (List.replicate 40 (some 0) ++ [some 7])

/-- Concrete raw table for the C10 witness. -/
def dfW : RawTable :=
  ⟨2, [("col_0", [RawValue.num 1, RawValue.text "abc"]),
       ("col_9", [RawValue.text "  hi  ", RawValue.missing])]⟩

/-- Concrete cleaned table for the C8 witness. -/
def tW : Table :=
  ⟨2, [("col_0", ColData.numCol [some 0, some 1]),
       ("col_9", ColData.strCol [some "COSMIC", some "COSMIC"])]⟩

/-! ### Helper lemmas -/

theorem foldl_append_singleton {α β : Type} (f : α → β) (l : List α) :
    ∀ init : List β, l.foldl (fun acc p => acc ++ [f p]) init = init ++ l.map f := by
  induction l with
  | nil => intro init; simp
  | cons a t ih => intro init; simp [ih (init ++ [f a])]

theorem nunique_eq_zero (s : ColData) (h : nonMissingCount s = 0) : nunique s = 0 := by
  cases s with
  | numCol cs =>
    simp only [nonMissingCount, List.length_eq_zero] at h
    simp [nunique, h]
  | strCol cs =>
    simp only [nonMissingCount, List.length_eq_zero] at h
    simp [nunique, h]

theorem dedup_length_one {α : Type} [DecidableEq α] (l : List α) (a : α)
    (hne : l ≠ []) (h : ∀ x ∈ l, x = a) : l.dedup.length = 1 := by
  have hfs : l.toFinset = {a} := by
    obtain ⟨c, t, rfl⟩ := List.exists_cons_of_ne_nil hne
    have hc : c = a := h c (by simp)
    ext x
    simp only [List.mem_toFinset, Finset.mem_singleton]
    constructor
    · exact fun hx => h x hx
    · intro hx
      rw [hx, ← hc]
      simp
  have hcard := List.card_toFinset l
  rw [hfs] at hcard
  simpa using hcard.symm

theorem monoInc_of_const (l : List ℚ) (h : ∀ x ∈ l, ∀ y ∈ l, x = y) :
    isMonoInc l = true := by
  induction l with
  | nil => rfl
  | cons a t ih =>
    cases t with
    | nil => rfl
    | cons b t' =>
      have hab : a = b := h a (by simp) b (by simp)
      have ht : isMonoInc (b :: t') = true :=
        ih fun x hx y hy =>
          h x (List.mem_cons.mpr (Or.inr hx)) y (List.mem_cons.mpr (Or.inr hy))
      simp [isMonoInc, hab, ht]

theorem monoDec_of_const (l : List ℚ) (h : ∀ x ∈ l, ∀ y ∈ l, x = y) :
    isMonoDec l = true := by
  induction l with
  | nil => rfl
  | cons a t ih =>
    cases t with
    | nil => rfl
    | cons b t' =>
      have hab : a = b := h a (by simp) b (by simp)
      have ht : isMonoDec (b :: t') = true :=
        ih fun x hx y hy =>
          h x (List.mem_cons.mpr (Or.inr hx)) y (List.mem_cons.mpr (Or.inr hy))
      simp [isMonoDec, hab, ht]

theorem head?_dropWhile_not (p : Char → Bool) (l : List Char) :
    ((l.dropWhile p).head?).all (fun c => !p c) = true := by
  induction l with
  | nil => rfl
  | cons a t ih =>
    cases hpa : p a with
    | true => simpa [List.dropWhile_cons, hpa] using ih
    | false => simp [List.dropWhile_cons, hpa]

theorem getLast?_dropWhile (p : Char → Bool) (l : List Char)
    (h : l.dropWhile p ≠ []) : (l.dropWhile p).getLast? = l.getLast? := by
  induction l with
  | nil => exact absurd rfl h
  | cons a t ih =>
    cases hpa : p a with
    | false => rw [List.dropWhile_cons, if_neg (by simp [hpa])]
    | true =>
      have hd : (a :: t).dropWhile p = t.dropWhile p := by
        rw [List.dropWhile_cons, if_pos hpa]
      rw [hd] at h ⊢
      have ht : t ≠ [] := by
        intro h0
        rw [h0] at h
        exact h rfl
      cases t with
      | nil => exact absurd rfl ht
      | cons b t' =>
        rw [List.getLast?_cons_cons]
        exact ih h

theorem okEnds_strip (l : List Char) : okEnds (stripList l) = true := by
  unfold okEnds stripList
  rw [List.head?_reverse, List.getLast?_reverse]
  rw [Bool.and_eq_true]
  refine ⟨?_, head?_dropWhile_not _ _⟩
  by_cases hX : (l.dropWhile isPySpace).reverse.dropWhile isPySpace = []
  · rw [hX]; rfl
  · rw [getLast?_dropWhile isPySpace _ hX, List.getLast?_reverse]
    exact head?_dropWhile_not _ _

/-! ### Claim theorems -/

/-- Claim C1 (corrected label): in the first-match role chain, a numeric
column with exactly one distinct non-missing value that is not the
trailing column `col_9` gets the constant-sensor role; the label the code
returns is `constant sensor/setting (e.g., fixed parameter)`. -/
theorem possible_role_constant_label (name : String) (s : ColData)
    (hnum : isNumericDtype s = true) (h1 : nunique s = 1) (h9 : name ≠ "col_9") :
    possible_role name s = "constant sensor/setting (e.g., fixed parameter)" := by
  unfold possible_role
  rw [if_neg fun hc => h9 hc.1, if_pos hnum, if_pos h1]

/-- Claim C1, witness: a concrete two-cell constant numeric column. -/
theorem possible_role_constant_label_witness :
    isNumericDtype (ColData.numCol [some 5, some 5]) = true ∧
    nunique (ColData.numCol [some 5, some 5]) = 1 ∧
    possible_role "col_0" (ColData.numCol [some 5, some 5]) =
      "constant sensor/setting (e.g., fixed parameter)" :=
  ⟨rfl, by decide,
   possible_role_constant_label "col_0" _ rfl (by decide) (by decide)⟩

/-- Claim C1, counterexample to the label as claimed: the code returns
`constant sensor/setting (e.g., fixed parameter)`, not the claimed
`constant sensor/setting (fixed parameter)`. -/
theorem possible_role_constant_label_cex :
    isNumericDtype (ColData.numCol [some 5, some 5, some 5]) = true ∧
    nunique (ColData.numCol [some 5, some 5, some 5]) = 1 ∧
    possible_role "col_2" (ColData.numCol [some 5, some 5, some 5]) =
      "constant sensor/setting (e.g., fixed parameter)" ∧
    possible_role "col_2" (ColData.numCol [some 5, some 5, some 5]) ≠
      "constant sensor/setting (fixed parameter)" := by
  refine ⟨rfl, by decide, by decide, by decide⟩

/-- Claim C2: in `_constant_hint` the numeric near-constant rule is tested
before the low-cardinality rule, so a numeric column with 2 or 3 distinct
values and range at most 0.5 yields `near_constant(nunique=<n>,
range=<r>)` (range in 4 significant digits), and a column matching
neither rule yields `varies`. -/
theorem constant_hint_check_order (s : ColData) :
    (isNumericDtype s = true → 2 ≤ nunique s → nunique s ≤ 3 →
      rangeLE s (1 / 2) = true →
      _constant_hint s =
        "near_constant(nunique=" ++ toString (nunique s) ++ ", range=" ++
          fmt4g (colRangeD s) ++ ")") ∧
    (4 ≤ nunique s →
      ¬(isNumericDtype s = true ∧ nunique s ≤ 5 ∧ rangeLE s (1 / 2) = true) →
      _constant_hint s = "varies") := by
  constructor
  · intro hnum h2 h3 hr
    have hcount : ¬nonMissingCount s = 0 := fun hc => by
      have := nunique_eq_zero s hc
      omega
    unfold _constant_hint
    rw [if_neg hcount, if_neg (by omega : ¬nunique s = 1),
      if_pos ⟨hnum, by omega, hr⟩]
  · intro h4 hnc
    have hcount : ¬nonMissingCount s = 0 := fun hc => by
      have := nunique_eq_zero s hc
      omega
    unfold _constant_hint
    rw [if_neg hcount, if_neg (by omega : ¬nunique s = 1), if_neg hnc,
      if_neg (by omega : ¬nunique s ≤ 3)]

/-- Claim C2, witness: a 2-distinct-value numeric column with range 0.25
gets `near_constant`, a 4-distinct wide column gets `varies`. -/
theorem constant_hint_check_order_witness :
    _constant_hint (ColData.numCol [some 1, some (5 / 4)]) =
      "near_constant(nunique=2, range=0.25)" ∧
    _constant_hint (ColData.numCol [some 0, some 1, some 2, some 3]) = "varies" :=
  ⟨((constant_hint_check_order (ColData.numCol [some 1, some (5 / 4)])).1
      rfl (by decide) (by decide) (by decide)).trans (by decide),
   (constant_hint_check_order (ColData.numCol [some 0, some 1, some 2, some 3])).2
      (by decide) (by decide)⟩

/-- Claim C3: a numeric column whose non-missing values form a constant,
non-empty sequence is both non-decreasing and non-increasing, so the
monotonicity hint falls through to `not_monotonic`. -/
theorem monotonic_hint_constant_not_monotonic (s : ColData)
    (hnum : isNumericDtype s = true) (hne : nonMissingNum s ≠ [])
    (hconst : ∀ x ∈ nonMissingNum s, ∀ y ∈ nonMissingNum s, x = y) :
    _monotonic_hint s = "not_monotonic" := by
  have hcount : ¬nonMissingCount s = 0 := by
    cases s with
    | numCol cs =>
      simpa [nonMissingCount, nonMissingNum, List.length_eq_zero] using hne
    | strCol cs => simp [isNumericDtype] at hnum
  have hinc := monoInc_of_const (nonMissingNum s) hconst
  have hdec := monoDec_of_const (nonMissingNum s) hconst
  unfold _monotonic_hint
  rw [if_neg hcount, if_neg (by simp [hnum]), if_neg (by simp [hdec]),
    if_neg (by simp [hinc])]

/-- Claim C3, witness: a three-cell constant numeric column. -/
theorem monotonic_hint_constant_not_monotonic_witness :
    nonMissingNum (ColData.numCol [some 7, some 7, some 7]) ≠ [] ∧
    _monotonic_hint (ColData.numCol [some 7, some 7, some 7]) = "not_monotonic" :=
  ⟨by decide,
   monotonic_hint_constant_not_monotonic _ rfl (by decide) (by decide)⟩

/-- Claim C4 (corrected label): for a non-numeric column with at least one
non-missing value the monotonicity hint is the string `n/a` the code
returns, not the spec's `not_applicable`. -/
theorem monotonic_hint_text_na (s : ColData)
    (hnum : isNumericDtype s = false) (h : nonMissingCount s ≠ 0) :
    _monotonic_hint s = "n/a" := by
  unfold _monotonic_hint
  rw [if_neg h, if_pos hnum]

/-- Claim C4, witness: a one-cell text column. -/
theorem monotonic_hint_text_na_witness :
    nonMissingCount (ColData.strCol [some "x"]) ≠ 0 ∧
    _monotonic_hint (ColData.strCol [some "x"]) = "n/a" :=
  ⟨by decide, monotonic_hint_text_na _ rfl (by decide)⟩

/-- Claim C4, counterexample to the label as claimed: the code returns
`n/a`, which is not the claimed string `not_applicable`. -/
theorem monotonic_hint_text_na_cex :
    isNumericDtype (ColData.strCol [some "x", some "y"]) = false ∧
    nonMissingCount (ColData.strCol [some "x", some "y"]) ≠ 0 ∧
    _monotonic_hint (ColData.strCol [some "x", some "y"]) = "n/a" ∧
    _monotonic_hint (ColData.strCol [some "x", some "y"]) ≠ "not_applicable" := by
  refine ⟨rfl, by decide, by decide, by decide⟩

/-- Claim C5 (corrected): the mostly-zeros rule fires only when the
fraction of zero cells over the FULL column (missing cells counted as
non-zero) exceeds 95%, not when the zero-fraction over non-missing values
does; under the corrected premise the role is the mostly-zeros label. -/
theorem possible_role_mostly_zeros (name : String) (s : ColData)
    (hnum : isNumericDtype s = true) (h1 : nunique s ≠ 1)
    (h2 : ¬(nunique s ≤ 5 ∧ rangeLE s (1 / 2) = true))
    (h3 : _zero_fraction s ≠ "n/a") (h4 : fullZeroFrac s > 95 / 100) :
    possible_role name s = "flag/status/unused channel (mostly zeros)" := by
  unfold possible_role
  rw [if_neg fun hc => h1 hc.2, if_pos hnum, if_neg h1, if_neg h2,
    if_pos ⟨h3, h4⟩]

/-- Claim C5, witness: forty zeros and one seven with no missing cells;
the full-column zero fraction 40/41 exceeds 95%, and the rule fires. -/
theorem possible_role_mostly_zeros_witness :
    fullZeroFrac wzCol5 > 95 / 100 ∧
    possible_role "col_2" wzCol5 = "flag/status/unused channel (mostly zeros)" :=
  ⟨by decide,
   possible_role_mostly_zeros "col_2" wzCol5 rfl (by decide) (by decide)
     (by decide) (by decide)⟩

/-- Claim C5, counterexample to the claim as stated: forty zeros, one
seven and three missing cells.  The zero-fraction over non-missing values
is 40/41 > 95%, every premise of the claim holds, yet the role is the
monotonic-counter label because `s.eq(0).mean()` divides by all 44 rows
(40/44 < 95%). -/
theorem possible_role_mostly_zeros_cex :
    isNumericDtype cexCol5 = true ∧
    nunique cexCol5 ≠ 1 ∧
    ¬(nunique cexCol5 ≤ 5 ∧ rangeLE cexCol5 (1 / 2) = true) ∧
    _zero_fraction cexCol5 ≠ "n/a" ∧
    ((nonMissingNum cexCol5).countP (fun q => decide (q = 0)) : ℚ) /
        ((nonMissingNum cexCol5).length : ℚ) > 95 / 100 ∧
    possible_role "col_3" cexCol5 = "counter or time-like variable (monotonic)" ∧
    possible_role "col_3" cexCol5 ≠ "flag/status/unused channel (mostly zeros)" := by
  refine ⟨rfl, by decide, by decide, by decide, by decide, by decide, by decide⟩

/-- For a numeric column with a non-missing value, the `n/a` guard of
`_zero_fraction` is off (shared by the C7 and C9 proofs). -/
theorem numeric_nonempty_not_na_cond (s : ColData) (hnum : isNumericDtype s = true)
    (hne : nonMissingNum s ≠ []) :
    ¬(nonMissingCount s = 0 ∨ isNumericDtype s = false) := by
  rintro (hc | hc)
  · cases s with
    | numCol cs =>
      simp only [nonMissingCount, List.length_eq_zero] at hc
      exact hne hc
    | strCol cs => simp [isNumericDtype] at hnum
  · rw [hnum] at hc
    exact absurd hc (by decide)

/-- Claim C6 (corrected zero-fraction label): on an all-missing column the
four derived fields are `empty`, `n/a` (the code's string, where the spec
says `not_applicable`), `empty` and `unknown`. -/
theorem all_missing_summary_fields (name : String) (s : ColData)
    (h : nonMissingCount s = 0) :
    _monotonic_hint s = "empty" ∧ _zero_fraction s = "n/a" ∧
    _constant_hint s = "empty" ∧ possible_role name s = "unknown" := by
  have hnun : nunique s = 0 := nunique_eq_zero s h
  have hmono : _monotonic_hint s = "empty" := by
    unfold _monotonic_hint
    rw [if_pos h]
  have hzf : _zero_fraction s = "n/a" := by
    unfold _zero_fraction
    rw [if_pos (Or.inl h)]
  refine ⟨hmono, hzf, ?_, ?_⟩
  · unfold _constant_hint
    rw [if_pos h]
  · have hnil : nonMissingNum s = [] := by
      cases s with
      | numCol cs =>
        simpa [nonMissingCount, nonMissingNum, List.length_eq_zero] using h
      | strCol cs => rfl
    have hr : rangeLE s (1 / 2) = false := by
      simp [rangeLE, hnil, listMax, listMin]
    have h9 : ¬(name = "col_9" ∧ nunique s = 1) := by
      rintro ⟨-, h1⟩
      omega
    unfold possible_role
    rw [if_neg h9]
    by_cases hb : isNumericDtype s = true
    · have h1 : ¬nunique s = 1 := by omega
      have h2 : ¬(nunique s ≤ 5 ∧ rangeLE s (1 / 2) = true) := by
        rintro ⟨-, hr2⟩
        rw [hr] at hr2
        exact absurd hr2 (by decide)
      have h3 : ¬(_zero_fraction s ≠ "n/a" ∧ fullZeroFrac s > 95 / 100) := by
        rintro ⟨hz, -⟩
        exact hz hzf
      have h4 : ¬(_monotonic_hint s = "monotonic_increasing") := by
        rw [hmono]
        decide
      rw [if_pos hb, if_neg h1, if_neg h2, if_neg h3, if_neg h4]
    · rw [if_neg hb]

/-- Claim C6, witness: a two-cell all-missing numeric column. -/
theorem all_missing_summary_fields_witness :
    nonMissingCount (ColData.numCol [none, none]) = 0 ∧
    (_monotonic_hint (ColData.numCol [none, none]) = "empty" ∧
     _zero_fraction (ColData.numCol [none, none]) = "n/a" ∧
     _constant_hint (ColData.numCol [none, none]) = "empty" ∧
     possible_role "col_0" (ColData.numCol [none, none]) = "unknown") :=
  ⟨rfl, all_missing_summary_fields "col_0" (ColData.numCol [none, none]) rfl⟩

/-- Claim C6, counterexample to the zero-fraction label as claimed: on an
all-missing column the code returns `n/a`, not `not_applicable`. -/
theorem all_missing_zero_fraction_cex :
    nonMissingCount (ColData.numCol [none, none, none]) = 0 ∧
    _zero_fraction (ColData.numCol [none, none, none]) = "n/a" ∧
    _zero_fraction (ColData.numCol [none, none, none]) ≠ "not_applicable" := by
  refine ⟨rfl, by decide, by decide⟩

/-- Claim C7: for a non-empty numeric column, `_zero_fraction` is the
fraction of non-missing values exactly equal to zero, times 100, rendered
by the two-decimal fixed-point formatter with a percent sign. -/
theorem zero_fraction_formula (s : ColData) (hnum : isNumericDtype s = true)
    (hne : nonMissingNum s ≠ []) :
    _zero_fraction s =
      fmt2f (((nonMissingNum s).countP (fun q => decide (q = 0)) : ℚ) /
        ((nonMissingNum s).length : ℚ) * 100) ++ "%" := by
  unfold _zero_fraction
  rw [if_neg (numeric_nonempty_not_na_cond s hnum hne)]

/-- Claim C7, witness: the column `[0,0,0,0,0,0,0,0,0,0,1]` renders as
exactly `90.91%`. -/
theorem zero_fraction_formula_witness :
    _zero_fraction (ColData.numCol [some 0, some 0, some 0, some 0, some 0,
      some 0, some 0, some 0, some 0, some 0, some 1]) = "90.91%" :=
  (zero_fraction_formula (ColData.numCol [some 0, some 0, some 0, some 0, some 0,
      some 0, some 0, some 0, some 0, some 0, some 1]) rfl (by decide)).trans
    (by decide)

/-- Claim C8: the report builder is deterministic (equal tables give
byte-identical strings) and renders exactly one summary row per column,
in the table's original column order, between the fixed header and notes. -/
theorem build_schema_report_deterministic_ordered (t₁ t₂ : Table) (h : t₁ = t₂) :
    build_schema_report t₁ = build_schema_report t₂ ∧
    build_schema_report t₁ =
      String.intercalate "\n"
        (reportHeader t₁ ++ t₁.cols.map summaryRow ++ reportNotes) := by
  subst h
  refine ⟨rfl, ?_⟩
  unfold build_schema_report
  rw [foldl_append_singleton]

/-- Claim C8, witness: a concrete two-column table. -/
theorem build_schema_report_deterministic_ordered_witness :
    build_schema_report tW = build_schema_report tW ∧
    build_schema_report tW =
      String.intercalate "\n"
        (reportHeader tW ++ tW.cols.map summaryRow ++ reportNotes) :=
  build_schema_report_deterministic_ordered tW tW rfl

/-- Claim C9: the mostly-zeros rule divides the zero count by all rows
(missing counted as non-zero), so a numeric column whose non-missing
values are all zero with at least 5% of rows missing is never classified
mostly-zeros, although its reported zero-fraction string is `100.00%`
(here the constant rule, which fires first, already diverts it). -/
theorem mostly_zeros_ignores_missing_denominator (name : String) (s : ColData)
    (hnum : isNumericDtype s = true) (hne : nonMissingNum s ≠ [])
    (hz : ∀ q ∈ nonMissingNum s, q = 0)
    (hmiss : (totalLen s : ℚ) * (5 / 100) ≤
      ((totalLen s - nonMissingCount s : ℕ) : ℚ)) :
    possible_role name s ≠ "flag/status/unused channel (mostly zeros)" ∧
    _zero_fraction s = "100.00%" := by
  have hnun : nunique s = 1 := by
    cases s with
    | numCol cs => exact dedup_length_one (cs.filterMap id) 0 hne hz
    | strCol cs => simp [isNumericDtype] at hnum
  constructor
  · by_cases hc : name = "col_9" ∧ nunique s = 1
    · unfold possible_role
      rw [if_pos hc]
      decide
    · unfold possible_role
      rw [if_neg hc, if_pos hnum, if_pos hnun]
      decide
  · unfold _zero_fraction
    rw [if_neg (numeric_nonempty_not_na_cond s hnum hne)]
    have hc2 : (nonMissingNum s).countP (fun q => decide (q = 0)) =
        (nonMissingNum s).length :=
      List.countP_eq_length.mpr fun a ha => by simp [hz a ha]
    have hlen : ((nonMissingNum s).length : ℚ) ≠ 0 :=
      Nat.cast_ne_zero.mpr fun h0 => hne (List.length_eq_zero.mp h0)
    rw [hc2, div_self hlen, one_mul]
    decide

/-- Claim C9, witness: one zero cell and one missing cell (50% missing):
role is the constant-sensor label, never mostly-zeros, while the reported
zero fraction is `100.00%`. -/
theorem mostly_zeros_ignores_missing_denominator_witness :
    (totalLen (ColData.numCol [some 0, none]) : ℚ) * (5 / 100) ≤
      ((totalLen (ColData.numCol [some 0, none]) -
        nonMissingCount (ColData.numCol [some 0, none]) : ℕ) : ℚ) ∧
    (possible_role "col_1" (ColData.numCol [some 0, none]) ≠
      "flag/status/unused channel (mostly zeros)" ∧
     _zero_fraction (ColData.numCol [some 0, none]) = "100.00%") :=
  ⟨by decide,
   mostly_zeros_ignores_missing_denominator "col_1" (ColData.numCol [some 0, none])
     rfl (by decide) (by decide) (by decide)⟩

/-- Claim C10: `basic_structural_clean` leaves its argument unchanged (it
mutates only the `df.copy()`), coerces every column except `col_9` to a
numeric column whose cells come from the per-cell coercion (non-coercible
entries become the missing marker), and maps `col_9` to
whitespace-stripped strings. -/
theorem basic_structural_clean_contract (df : RawTable) (name : String)
    (col : ColData) (hmem : (name, col) ∈ (basic_structural_clean df).2.cols) :
    (basic_structural_clean df).1 = df ∧
    (name ≠ "col_9" → isNumericDtype col = true ∧
      ∃ raws, (name, raws) ∈ df.cols ∧
        col = ColData.numCol (raws.map toNumericCell)) ∧
    (name = "col_9" → ∃ raws, (name, raws) ∈ df.cols ∧
      col = ColData.strCol (raws.map fun v => some (pystrip (pyStrRaw v))) ∧
      ∀ ov ∈ strColCells col, ∃ x, ov = some x ∧ okEnds x.data = true) := by
  have hmem' : (name, col) ∈ df.cols.map fun p => (p.1, cleanColumn p.1 p.2) := hmem
  obtain ⟨p, hp, heq⟩ := List.mem_map.mp hmem'
  have hn : p.1 = name := congrArg Prod.fst heq
  have hcol : cleanColumn p.1 p.2 = col := congrArg Prod.snd heq
  refine ⟨rfl, ?_, ?_⟩
  · intro h9
    have hcc : cleanColumn p.1 p.2 = ColData.numCol (p.2.map toNumericCell) := by
      unfold cleanColumn
      rw [hn, if_neg h9]
    refine ⟨?_, p.2, ?_, ?_⟩
    · rw [← hcol, hcc]
      rfl
    · rw [← hn]
      exact hp
    · rw [← hcol, hcc]
  · intro h9
    have hcc : cleanColumn p.1 p.2 =
        ColData.strCol (p.2.map fun v => some (pystrip (pyStrRaw v))) := by
      unfold cleanColumn
      rw [hn, if_pos h9]
    refine ⟨p.2, ?_, ?_, ?_⟩
    · rw [← hn]
      exact hp
    · rw [← hcol, hcc]
    · rw [← hcol, hcc]
      intro ov hov
      simp only [strColCells] at hov
      obtain ⟨v, hv, rfl⟩ := List.mem_map.mp hov
      exact ⟨pystrip (pyStrRaw v), rfl, okEnds_strip ((pyStrRaw v).data)⟩

/-- Claim C10, witness: a concrete raw table with a non-coercible text
cell in `col_0` and padded text plus a missing cell in `col_9`. -/
theorem basic_structural_clean_contract_witness :
    ("col_9", ColData.strCol [some "hi", some "nan"]) ∈
      (basic_structural_clean dfW).2.cols ∧
    (basic_structural_clean dfW).1 = dfW ∧
    (∃ raws, ("col_9", raws) ∈ dfW.cols ∧
      ColData.strCol [some "hi", some "nan"] =
        ColData.strCol (raws.map fun v => some (pystrip (pyStrRaw v))) ∧
      ∀ ov ∈ strColCells (ColData.strCol [some "hi", some "nan"]),
        ∃ x, ov = some x ∧ okEnds x.data = true) :=
  ⟨by decide,
   (basic_structural_clean_contract dfW "col_9"
     (ColData.strCol [some "hi", some "nan"]) (by decide)).1,
   (basic_structural_clean_contract dfW "col_9"
     (ColData.strCol [some "hi", some "nan"]) (by decide)).2.2 rfl⟩
